/-
Verification development for the Keysight 53230A counter streaming GUI
(`counter.py` producer, `gui.py` consumer/analysis pipeline).

The consumer (`MyApp`) is modelled as an explicit state record; imperative
handlers (`read_data_stream`, the checkbox toggles, `set_f0_and_recalc`,
`update_psd`) become pure state-transition functions.  Measured values and
timestamps are rationals (exact arithmetic stands in for Python floats;
no claim here depends on rounding).  A scheduled `self.after(ms, ...)` call
is modelled as a returned `Option ℤ` delay in milliseconds (`none` = the
handler returned without rescheduling itself).
-/
import Mathlib

namespace KS53230

/-- Python `int(q)` for a rational: truncation toward zero. -/
def pyInt (q : ℚ) : ℤ := if 0 ≤ q then ⌊q⌋ else ⌈q⌉

/-- The mutable fields of `MyApp` (gui.py) that the streaming/analysis
pipeline reads or writes, plus `logFile`, the rows last written by
`np.savetxt` (`none` = no write has happened yet), and `status_error`,
whether the status label currently shows an error text. -/
structure ConsumerState where
  /-- `self.t` : synthesized timestamps of the Series. -/
  t : List ℚ
  /-- `self.f` : measured values of the Series. -/
  f : List ℚ
  /-- `self.initialized`. -/
  initialized : Bool
  /-- `self.t_start` : Allan pipeline timestamp buffer. -/
  t_start : List ℚ
  /-- `self.f_start` : Allan pipeline analysis buffer. -/
  f_start : List ℚ
  /-- `self.f_psd` : PSD pipeline analysis buffer. -/
  f_psd : List ℚ
  /-- `self.plot_oadev` (BooleanVar). -/
  plot_oadev : Bool
  /-- `self.plot_psd` (BooleanVar). -/
  plot_psd : Bool
  /-- `self.log_data` (BooleanVar). -/
  log_data : Bool
  /-- `self.subtract_trend` (BooleanVar). -/
  subtract_trend : Bool
  /-- `self.log_start_index`. -/
  log_start_index : ℕ
  /-- `self.gate_time`. -/
  gate_time : ℚ
  /-- `self.time_between_reads`. -/
  time_between_reads : ℚ
  /-- `self.psd_averaging` (`nperseg` for Welch). -/
  psd_averaging : ℕ
  /-- `self.f0` : reference frequency. -/
  f0 : ℚ
  /-- `self.connected`. -/
  connected : Bool
  /-- Rows of the time-series log file last written by `np.savetxt`. -/
  logFile : Option (List (ℚ × ℚ))
  /-- Whether `status_label` shows an error message. -/
  status_error : Bool
  deriving DecidableEq

/-- Outcome of `self.socket.recv_string()` plus decoding in
`read_data_stream`: a successfully decoded frame, a poll timeout
(`zmq.error.Again`), or any other receive/decode failure. -/
inductive RecvOutcome where
  | frame (r : List ℚ)
  | timeout
  | recvError
  deriving DecidableEq

/-- One invocation of `MyApp.read_data_stream` (gui.py:369-413) as a state
transition.  Returns the new state and the `self.after` delay in ms
(`none` when the handler returns without rescheduling).  Field-by-field
translation of the method body:
timeout reschedules with `int(950*time_between_reads)` and changes nothing;
any other receive/decode error sets the status label and returns;
a decoded frame `r` appends `len(r)` timestamps (`0,gt,...` when not yet
initialized, else `t[-1]+gt, ..., t[-1]+len(r)*gt`), appends `r` to `f`,
rewrites the log file with the slice from `log_start_index` when logging
is on and `len(t) > log_start_index`, appends `t[-len(r):]` and `r` to the
Allan buffers when OADEV plotting is on, appends `r` to the PSD buffer
when PSD plotting is on, and reschedules. -/
def read_data_stream (s : ConsumerState) (x : RecvOutcome) :
    ConsumerState × Option ℤ :=
  if s.connected = false then (s, none)
  else
    match x with
    | .timeout => (s, some (pyInt (950 * s.time_between_reads)))
    | .recvError => ({ s with status_error := true }, none)
    | .frame r =>
      let n := r.length
      let newT :=
        if s.initialized then
          s.t ++ (List.range n).map
            (fun (i : ℕ) => ((i : ℚ) + 1) * s.gate_time + s.t.getLastD 0)
        else
          s.t ++ (List.range n).map (fun (i : ℕ) => (i : ℚ) * s.gate_time)
      let newF := s.f ++ r
      let newLog :=
        if s.log_data = true ∧ s.log_start_index < newT.length then
          some ((newT.drop s.log_start_index).zip (newF.drop s.log_start_index))
        else s.logFile
      -- Python `self.t[-len(r):]`: the whole list when `len(r) = 0`,
      -- otherwise the last `len(r)` elements.
      let tTail := if n = 0 then newT else newT.drop (newT.length - n)
      ({ s with
          t := newT
          f := newF
          initialized := true
          logFile := newLog
          t_start := if s.plot_oadev then s.t_start ++ tTail else s.t_start
          f_start := if s.plot_oadev then s.f_start ++ r else s.f_start
          f_psd := if s.plot_psd then s.f_psd ++ r else s.f_psd },
       some (pyInt (950 * s.time_between_reads)))

/-- `MyApp.toggle_oadev_plotting` (gui.py:415-426): the handler body, run
after tk has already flipped `plot_oadev`; clears both Allan buffers when
the box is now checked. -/
def toggle_oadev_plotting (s : ConsumerState) : ConsumerState :=
  if s.plot_oadev then { s with f_start := [], t_start := [] } else s

/-- `MyApp.toggle_psd_plotting` (gui.py:504-514): handler body after the
checkbox flip; clears the PSD buffer when the box is now checked. -/
def toggle_psd_plotting (s : ConsumerState) : ConsumerState :=
  if s.plot_psd then { s with f_psd := [] } else s

/-- `MyApp.toggle_logging` (gui.py:428-437): handler body after the
checkbox flip; records the current Series length as the log start index
when logging is now enabled. -/
def toggle_logging (s : ConsumerState) : ConsumerState :=
  if s.log_data then { s with log_start_index := s.f.length } else s

/-- A click on the OADEV checkbox: tk flips the BooleanVar, then runs the
handler. -/
def clickOadev (s : ConsumerState) : ConsumerState :=
  toggle_oadev_plotting { s with plot_oadev := !s.plot_oadev }

/-- A click on the PSD checkbox: tk flips the BooleanVar, then runs the
handler. -/
def clickPsd (s : ConsumerState) : ConsumerState :=
  toggle_psd_plotting { s with plot_psd := !s.plot_psd }

/-- A click on the Log checkbox: tk flips the BooleanVar, then runs the
handler. -/
def clickLog (s : ConsumerState) : ConsumerState :=
  toggle_logging { s with log_data := !s.log_data }

/-- Folding `read_data_stream` over a list of successfully decoded
frames (several ingestion cycles in sequence). -/
def ingestFrames (s : ConsumerState) (rs : List (List ℚ)) : ConsumerState :=
  rs.foldl (fun a r => (read_data_stream a (.frame r)).1) s

/-- `MyApp.set_f0_and_recalc` (gui.py:470-477): the entry text either
parses to a float (`some v`) or raises ValueError (`none`).  On a parse
success `f0` is assigned unconditionally and `update_allan_dev` runs iff
OADEV plotting is enabled (the returned Bool); on a parse failure the
handler only prints. -/
def set_f0_and_recalc (s : ConsumerState) (input : Option ℚ) :
    ConsumerState × Bool :=
  match input with
  | none => (s, false)
  | some v => ({ s with f0 := v }, s.plot_oadev)

/-- Sum of the x-values `0, 1, ..., n-1` used by `np.polyfit(x, data, 1)`
with `x = np.arange(len(data))`. -/
def indexSum (n : ℕ) : ℚ := ((List.range n).map (fun (i : ℕ) => (i : ℚ))).sum

/-- Sum of the squared x-values `0, 1, ..., n-1`. -/
def indexSqSum (n : ℕ) : ℚ :=
  ((List.range n).map (fun (i : ℕ) => (i : ℚ) * i)).sum

/-- Sum of `x_i * y_i` where `x_i` is the index of `y_i` shifted by the
first argument (`weightedIdxSum k ys = Σ (k+i) * ys[i]`). -/
def weightedIdxSum : ℕ → List ℚ → ℚ
  | _, [] => 0
  | k, y :: ys => (k : ℚ) * y + weightedIdxSum (k + 1) ys

/-- The slope of the degree-1 least-squares fit over
`x = 0, ..., len(ys)-1`: the normal-equations solution
`(n·Σxy - Σx·Σy) / (n·Σx² - (Σx)²)`. -/
def polyfitSlope (ys : List ℚ) : ℚ :=
  ((ys.length : ℚ) * weightedIdxSum 0 ys - indexSum ys.length * ys.sum) /
    ((ys.length : ℚ) * indexSqSum ys.length -
      indexSum ys.length * indexSum ys.length)

/-- The degree-1 least-squares fit `np.polyfit(np.arange(len(ys)), ys, 1)`
in exact arithmetic: `(slope, intercept)` solving the normal equations
of the line fit over `x = 0, ..., len(ys)-1`. -/
def polyfit1 (ys : List ℚ) : ℚ × ℚ :=
  (polyfitSlope ys,
    (ys.sum - polyfitSlope ys * indexSum ys.length) / ys.length)

/-- `data - np.polyval(coeffs, x)`: element `i` becomes
`data[i] - (slope*i + intercept)`, with the index shifted by the first
argument. -/
def trendResiduals (slope intercept : ℚ) : ℕ → List ℚ → List ℚ
  | _, [] => []
  | k, y :: ys =>
    (y - (slope * k + intercept)) :: trendResiduals slope intercept (k + 1) ys

/-- `MyApp.get_detrended_data` (gui.py:490-502): when detrending is off or
the data has fewer than 2 points, the data is returned unchanged with no
slope; otherwise the degree-1 least-squares line over the sample indices
is subtracted and the fitted slope returned. -/
def get_detrended_data (subtract_trend : Bool) (data : List ℚ) :
    List ℚ × Option ℚ :=
  if subtract_trend = false ∨ data.length < 2 then (data, none)
  else
    let c := polyfit1 data
    (trendResiduals c.1 c.2 0 data, some c.1)

/-- The synthetic perfectly linear input `f[i] = a + m*i` of length `n`. -/
def linearData (a m : ℚ) (n : ℕ) : List ℚ :=
  (List.range n).map (fun (i : ℕ) => a + m * (i : ℚ))

/-- The one-sided frequency bins of `scipy.signal.welch` with segment
length `nperseg` and sampling rate `fs`: `k * fs / nperseg` for
`k = 0, ..., nperseg/2` (the rfft bins; bin 0 is DC). -/
def welchFreqs (nperseg : ℕ) (fs : ℚ) : List ℚ :=
  (List.range (nperseg / 2 + 1)).map (fun (k : ℕ) => (k : ℚ) * fs / nperseg)

/-- The rescaling `pxx = pxx / (freqs ** 2)` applied bin-by-bin — to every
bin, the zero-frequency bin included. -/
def psdRescale (freqs pxx : List ℚ) : List ℚ :=
  (freqs.zip pxx).map (fun p => p.2 / (p.1 * p.1))

/-- `MyApp.update_psd` (gui.py:527-561), the data path only (no plotting):
returns `none` when PSD plotting is disabled or the buffer is not strictly
longer than `psd_averaging`; otherwise detrends if enabled, forms the
Welch PSD at sampling rate `1/gate_time` with `nperseg = psd_averaging`,
and divides every power value by its squared frequency bin.  The Welch
power computation itself is floating-point numerics out of scope here, so
it is taken as a parameter `welch data fs nperseg`; the frequency bins are
`welchFreqs`. -/
def update_psd (welch : List ℚ → ℚ → ℕ → List ℚ) (s : ConsumerState) :
    Option (List ℚ × List ℚ) :=
  if s.plot_psd = false then none
  else if s.f_psd.length ≤ s.psd_averaging then none
  else
    let detrended := (get_detrended_data s.subtract_trend s.f_psd).1
    let fs := 1 / s.gate_time
    let freqs := welchFreqs s.psd_averaging fs
    let pxx := welch detrended fs s.psd_averaging
    some (freqs, psdRescale freqs pxx)

/-- `MyApp.set_psd_averaging` (gui.py:516-525): parse failure or a value
below 2 is rejected with no state change; otherwise `psd_averaging` is
assigned. -/
def set_psd_averaging (s : ConsumerState) (input : Option ℤ) : ConsumerState :=
  match input with
  | none => s
  | some v => if v < 2 then s else { s with psd_averaging := v.toNat }

/-- The per-cycle idle of `Counter.start_stream` (counter.py:73-95): the
virtual branch ends each cycle with `sleep(1)`, the real branch with
`sleep(self.time_between_reads)`. -/
def stream_cycle_sleep (virtual : Bool) (time_between_reads : ℚ) : ℚ :=
  if virtual then 1 else time_between_reads

/-- The instrument's "no data" sentinel response `'#10\n'`. -/
def sentinel : List Char := ['#', '1', '0', '\n']

/-- The strip loop of `Counter.start_stream` (counter.py:91-92),
`while r[0] != '+': r = r[1:]`, on a response modelled as a character
list.  `none` models the IndexError raised by `r[0]` once `r` is empty. -/
def strip_to_plus : List Char → Option (List Char)
  | [] => none
  | c :: cs => if c = '+' then some (c :: cs) else strip_to_plus cs

/-- Outcome of one real-mode publish step in `Counter.start_stream`. -/
inductive CycleResult where
  | skipped
  | published (msg : List Char)
  | crashed
  deriving DecidableEq

/-- One real-mode cycle body of `Counter.start_stream` (counter.py:88-95),
given the instrument's response `r`: the sentinel is skipped; otherwise
the response is stripped to its first `'+'` and published, and if the
strip loop empties the string the unguarded `r[0]` raises. -/
def real_cycle (r : List Char) : CycleResult :=
  if r = sentinel then .skipped
  else
    match strip_to_plus r with
    | some msg => .published msg
    | none => .crashed

/-- A concrete consumer state with the gui.py defaults (`gate_time = 1`,
`time_between_reads = 3`, `psd_averaging = 10`, `f0 = 193e12`), connected,
all pipelines off, empty Series. -/
def baseState : ConsumerState where
  t := []
  f := []
  initialized := false
  t_start := []
  f_start := []
  f_psd := []
  plot_oadev := false
  plot_psd := false
  log_data := false
  subtract_trend := false
  log_start_index := 0
  gate_time := 1
  time_between_reads := 3
  psd_averaging := 10
  f0 := 193e12
  connected := true
  logFile := none
  status_error := false

/-- C7 counterexample: the claim says the virtual producer loop idles for
approximately `time_between_reads` (3 s here) between cycles, but the
virtual branch of `Counter.start_stream` sleeps exactly 1 s regardless of
`time_between_reads`. -/
theorem C7_counterexample :
    stream_cycle_sleep true 3 = 1 ∧ (1 : ℚ) ≠ 3 := by
  exact ⟨rfl, by norm_num⟩

/-- C7 (amended): each real-mode streaming cycle ends by idling
`time_between_reads` seconds, but each virtual-mode cycle ends by idling a
fixed 1 second, independent of `time_between_reads`. -/
theorem C7_cycle_idle (tbr : ℚ) :
    stream_cycle_sleep false tbr = tbr ∧ stream_cycle_sleep true tbr = 1 :=
  ⟨rfl, rfl⟩

/-- C9 counterexample: the claim says every non-positive f0 input is
rejected with no state change and no recompute, but entering `-1` (which
parses) while OADEV plotting is on overwrites `f0 = 193e12` with `-1` and
triggers a recompute. -/
theorem C9_counterexample :
    (set_f0_and_recalc { baseState with plot_oadev := true }
        (some (-1))).1.f0 = -1 ∧
    (set_f0_and_recalc { baseState with plot_oadev := true }
        (some (-1))).1.f0 ≠ baseState.f0 ∧
    (set_f0_and_recalc { baseState with plot_oadev := true }
        (some (-1))).2 = true ∧
    (-1 : ℚ) ≤ 0 := by
  refine ⟨rfl, ?_, rfl, by norm_num⟩
  show (-1 : ℚ) ≠ 193e12
  norm_num

/-- C9 (amended): the f0 setter rejects only unparseable entries (state
unchanged, no recompute); every value that parses — non-positive values
included — is assigned to `f0` unconditionally, and a recompute is
triggered exactly when OADEV plotting is enabled. -/
theorem C9_set_f0 (s : ConsumerState) (v : ℚ) (hv : v ≤ 0) :
    (set_f0_and_recalc s (some v)).1.f0 = v ∧
    (set_f0_and_recalc s (some v)).2 = s.plot_oadev ∧
    set_f0_and_recalc s none = (s, false) :=
  ⟨rfl, rfl, rfl⟩

/-- C9 witness: `C9_set_f0` applied at `v = -5` from the base state. -/
theorem C9_set_f0_witness :
    (set_f0_and_recalc baseState (some (-5))).1.f0 = -5 ∧
    (set_f0_and_recalc baseState (some (-5))).2 = baseState.plot_oadev ∧
    set_f0_and_recalc baseState none = (baseState, false) :=
  C9_set_f0 baseState (-5) (by norm_num)

/-- C2 counterexample: the claim says a decode error still reschedules
the ingestion step, but from a connected state `read_data_stream` on a
receive/decode error sets the error status and returns without any
`self.after` call (delay `none`). -/
theorem C2_counterexample :
    baseState.connected = true ∧
    (read_data_stream baseState .recvError).1.status_error = true ∧
    (read_data_stream baseState .recvError).2 = none :=
  ⟨rfl, rfl, rfl⟩

/-- C2 (amended): while connected, a receive/decode failure other than a
poll timeout surfaces as a visible status change, but the handler returns
without rescheduling itself — a decode error stops the consumer's
periodic polling (until a reconnect restarts it). -/
theorem C2_decode_error_stops (s : ConsumerState) (hc : s.connected = true) :
    read_data_stream s .recvError = ({ s with status_error := true }, none) := by
  simp [read_data_stream, hc]

/-- C2 witness: `C2_decode_error_stops` at the base state. -/
theorem C2_decode_error_stops_witness :
    read_data_stream baseState .recvError =
      ({ baseState with status_error := true }, none) :=
  C2_decode_error_stops baseState rfl

/-- C3 counterexample: the claim says a poll timeout reschedules with zero
delay; with the default `time_between_reads = 3` the timeout branch
reschedules with `int(950 * 3) = 2850` ms, not 0 ms — the same delay as
the normal frame path. -/
theorem C3_counterexample :
    baseState.time_between_reads = 3 ∧
    (read_data_stream baseState .timeout).2 = some 2850 ∧
    (read_data_stream baseState .timeout).2 ≠ some 0 ∧
    (read_data_stream baseState (.frame [1])).2 = some 2850 := by
  have h : pyInt (950 * (3 : ℚ)) = 2850 := by unfold pyInt; norm_num
  refine ⟨rfl, ?_, ?_, ?_⟩
  · show some (pyInt (950 * (3 : ℚ))) = some 2850
    rw [h]
  · show some (pyInt (950 * (3 : ℚ))) ≠ some 0
    rw [h]; decide
  · show some (pyInt (950 * (3 : ℚ))) = some 2850
    rw [h]

/-- C3 (amended): while connected, a poll timeout changes no state at all
(Series, analysis buffers, logger state and the initialized flag are all
untouched) and reschedules with the same `int(950 × time_between_reads)`
ms delay as the normal frame path, not with zero delay. -/
theorem C3_timeout_reschedules (s : ConsumerState) (r : List ℚ)
    (hc : s.connected = true) :
    read_data_stream s .timeout =
      (s, some (pyInt (950 * s.time_between_reads))) ∧
    (read_data_stream s (.frame r)).2 =
      some (pyInt (950 * s.time_between_reads)) := by
  constructor
  · simp [read_data_stream, hc]
  · simp [read_data_stream, hc]

/-- C3 witness: `C3_timeout_reschedules` at the base state. -/
theorem C3_timeout_reschedules_witness :
    read_data_stream baseState .timeout =
      (baseState, some (pyInt (950 * baseState.time_between_reads))) ∧
    (read_data_stream baseState (.frame [7])).2 =
      some (pyInt (950 * baseState.time_between_reads)) :=
  C3_timeout_reschedules baseState [7] rfl

/-- The strip loop succeeds exactly on responses containing `'+'`, and
then returns the suffix starting at the first `'+'`. -/
lemma strip_to_plus_eq (r : List Char) :
    strip_to_plus r =
      if '+' ∈ r then some (r.dropWhile (fun c => c ≠ '+')) else none := by
  induction r with
  | nil => simp [strip_to_plus]
  | cons c cs ih =>
    by_cases hc : c = '+'
    · subst hc
      simp [strip_to_plus, List.dropWhile_cons]
    · simp [strip_to_plus, hc, List.dropWhile_cons, List.mem_cons, ih,
        Ne.symm hc]

/-- Dropping up to the first `'+'` of a list that contains one leaves a
list whose head is `'+'`. -/
lemma dropWhile_ne_plus_head (r : List Char) (h : '+' ∈ r) :
    (r.dropWhile (fun c => c ≠ '+')).head? = some '+' := by
  induction r with
  | nil => cases h
  | cons c cs ih =>
    by_cases hc : c = '+'
    · subst hc; simp [List.dropWhile_cons]
    · rcases List.mem_cons.mp h with h' | h'
      · exact absurd h'.symm hc
      · simpa [List.dropWhile_cons, hc] using ih h'

/-- C10: in real mode, every non-sentinel instrument response containing
a `'+'` is stripped to the suffix starting at its first `'+'` (so the
published frame begins with `'+'`), while every non-sentinel response
without a `'+'` drives the strip loop to empty the string and crash on
the unguarded `r[0]`; concretely the response `"12\n"` crashes. -/
theorem C10_strip_loop :
    (∀ r : List Char, r ≠ sentinel →
      (('+' ∈ r →
        real_cycle r = .published (r.dropWhile (fun c => c ≠ '+')) ∧
        (r.dropWhile (fun c => c ≠ '+')).head? = some '+') ∧
       ('+' ∉ r → real_cycle r = .crashed))) ∧
    real_cycle ['1', '2', '\n'] = .crashed := by
  constructor
  · intro r hr
    constructor
    · intro hmem
      refine ⟨?_, dropWhile_ne_plus_head r hmem⟩
      simp [real_cycle, hr, strip_to_plus_eq, hmem]
    · intro hmem
      simp [real_cycle, hr, strip_to_plus_eq, hmem]
  · decide

/-- C10 witness: `C10_strip_loop` applied to the responses `"a+b"`
(published, starts with `'+'`) and `"x"` (crash). -/
theorem C10_strip_loop_witness :
    real_cycle ['a', '+', 'b'] =
      .published (['a', '+', 'b'].dropWhile (fun c => c ≠ '+')) ∧
    real_cycle ['x'] = .crashed :=
  ⟨((C10_strip_loop.1 ['a', '+', 'b'] (by decide)).1 (by decide)).1,
   (C10_strip_loop.1 ['x'] (by decide)).2 (by decide)⟩

/-- The first Welch frequency bin is always DC (frequency 0). -/
lemma welchFreqs_head (nperseg : ℕ) (fs : ℚ) :
    (welchFreqs nperseg fs).head? = some 0 := by
  simp [welchFreqs, List.range_succ_eq_map]

/-- C5: a PSD compute cycle runs Welch exactly when the buffer is
strictly longer than `psd_averaging`; with `psd_averaging = 10` and a
buffer of exactly 10 values no Welch computation is attempted at all (so
nothing can raise and no power bin is produced); and whenever a cycle
does compute, its frequency bins are `welchFreqs psd_averaging
(1/gate_time)`, whose first bin is 0, and its output powers are the raw
Welch powers divided bin-by-bin by the squared frequency — the
zero-frequency bin with its zero divisor included. -/
theorem C5_psd_cycle (welch : List ℚ → ℚ → ℕ → List ℚ) (s : ConsumerState) :
    ((update_psd welch s).isSome ↔
      s.plot_psd = true ∧ s.psd_averaging < s.f_psd.length) ∧
    (s.psd_averaging = 10 → s.f_psd.length = 10 → update_psd welch s = none) ∧
    (∀ out, update_psd welch s = some out →
      out.1 = welchFreqs s.psd_averaging (1 / s.gate_time) ∧
      out.1.head? = some 0 ∧
      out.2 = psdRescale out.1
        (welch (get_detrended_data s.subtract_trend s.f_psd).1
          (1 / s.gate_time) s.psd_averaging)) := by
  refine ⟨?_, ?_, ?_⟩
  · unfold update_psd
    by_cases hp : s.plot_psd = false
    · simp [hp]
    · rw [Bool.not_eq_false] at hp
      by_cases hlen : s.f_psd.length ≤ s.psd_averaging
      · simp [hp, hlen, Nat.not_lt.mpr hlen]
      · simp [hp, hlen, Nat.not_le.mp hlen]
  · intro ha hl
    unfold update_psd
    by_cases hp : s.plot_psd = false
    · simp [hp]
    · simp [hp, ha, hl]
  · intro out hout
    unfold update_psd at hout
    by_cases hp : s.plot_psd = false
    · simp [hp] at hout
    · by_cases hlen : s.f_psd.length ≤ s.psd_averaging
      · simp [hp, hlen] at hout
      · simp [hp, hlen] at hout
        refine ⟨?_, ?_, ?_⟩
        · rw [← hout]; simp [one_div]
        · rw [← hout]; exact welchFreqs_head _ _
        · rw [← hout]; simp [one_div]

/-- C5 witness: `C5_psd_cycle` at a state with PSD enabled,
`psd_averaging = 10` and a buffer of exactly 10 constant values — the
cycle attempts no computation. -/
theorem C5_psd_cycle_witness :
    update_psd (fun _ _ _ => [])
      { baseState with plot_psd := true, f_psd := List.replicate 10 5 } =
      none :=
  (C5_psd_cycle (fun _ _ _ => [])
    { baseState with plot_psd := true, f_psd := List.replicate 10 5 }).2.1
    rfl (by decide)

/-- Unfolding of `ingestFrames` on a first frame. -/
lemma ingestFrames_cons (s : ConsumerState) (r : List ℚ)
    (rs : List (List ℚ)) :
    ingestFrames s (r :: rs) =
      ingestFrames (read_data_stream s (.frame r)).1 rs := rfl

/-- Unfolding of `ingestFrames` on no frames. -/
lemma ingestFrames_nil (s : ConsumerState) : ingestFrames s [] = s := rfl

/-- Field bookkeeping of one connected ingestion step on a frame: the
connection and pipeline flags are untouched, the Series grows by the
frame, and each analysis buffer grows by the frame exactly when its
pipeline is enabled. -/
lemma read_frame_fields (s : ConsumerState) (r : List ℚ)
    (hc : s.connected = true) :
    (read_data_stream s (.frame r)).1.connected = true ∧
    (read_data_stream s (.frame r)).1.plot_oadev = s.plot_oadev ∧
    (read_data_stream s (.frame r)).1.plot_psd = s.plot_psd ∧
    (read_data_stream s (.frame r)).1.log_data = s.log_data ∧
    (read_data_stream s (.frame r)).1.log_start_index = s.log_start_index ∧
    (read_data_stream s (.frame r)).1.f = s.f ++ r ∧
    (read_data_stream s (.frame r)).1.f_start =
      (if s.plot_oadev then s.f_start ++ r else s.f_start) ∧
    (read_data_stream s (.frame r)).1.f_psd =
      (if s.plot_psd then s.f_psd ++ r else s.f_psd) := by
  simp [read_data_stream, hc]

/-- Ingesting a list of frames keeps the connection and pipeline flags,
and appends the concatenation of the frames to each enabled analysis
buffer. -/
lemma ingestFrames_fields (rs : List (List ℚ)) :
    ∀ s : ConsumerState, s.connected = true →
      (ingestFrames s rs).connected = true ∧
      (ingestFrames s rs).plot_oadev = s.plot_oadev ∧
      (ingestFrames s rs).plot_psd = s.plot_psd ∧
      (s.plot_oadev = true →
        (ingestFrames s rs).f_start = s.f_start ++ rs.flatten) ∧
      (s.plot_psd = true →
        (ingestFrames s rs).f_psd = s.f_psd ++ rs.flatten) := by
  induction rs with
  | nil => intro s hc; simp [ingestFrames_nil, hc]
  | cons r rs ih =>
    intro s hc
    obtain ⟨h1, h2, h3, h4, h5, h6, h7, h8⟩ := read_frame_fields s r hc
    obtain ⟨g1, g2, g3, g4, g5⟩ :=
      ih (read_data_stream s (.frame r)).1 h1
    rw [ingestFrames_cons]
    refine ⟨g1, g2.trans h2, g3.trans h3, ?_, ?_⟩
    · intro ho
      rw [g4 (h2.trans ho), h7, if_pos ho, List.flatten_cons,
        List.append_assoc]
    · intro hp
      rw [g5 (h3.trans hp), h8, if_pos hp, List.flatten_cons,
        List.append_assoc]

/-- Enabling from a disabled state clears the Allan buffers and sets the
flag; nothing else changes. -/
lemma clickOadev_enable (u : ConsumerState) (hu : u.plot_oadev = false) :
    clickOadev u = { u with plot_oadev := true, f_start := [], t_start := [] } := by
  simp [clickOadev, toggle_oadev_plotting, hu]

/-- Disabling from an enabled state only clears the flag. -/
lemma clickOadev_disable (u : ConsumerState) (hu : u.plot_oadev = true) :
    clickOadev u = { u with plot_oadev := false } := by
  simp [clickOadev, toggle_oadev_plotting, hu]

/-- Enabling the PSD pipeline from a disabled state clears its buffer. -/
lemma clickPsd_enable (u : ConsumerState) (hu : u.plot_psd = false) :
    clickPsd u = { u with plot_psd := true, f_psd := [] } := by
  simp [clickPsd, toggle_psd_plotting, hu]

/-- Disabling the PSD pipeline from an enabled state only clears the
flag. -/
lemma clickPsd_disable (u : ConsumerState) (hu : u.plot_psd = true) :
    clickPsd u = { u with plot_psd := false } := by
  simp [clickPsd, toggle_psd_plotting, hu]

/-- C4: enabling the Allan or PSD pipeline always resets that pipeline's
analysis buffer to empty regardless of prior content, and after the
sequence enable → ingest `rs` → disable → re-enable → ingest `rs'` the
buffer holds exactly the samples of `rs'` (for each pipeline, starting
from a connected state with that pipeline off). -/
theorem C4_enable_resets (s : ConsumerState) (rs rs' : List (List ℚ))
    (hc : s.connected = true) (ho : s.plot_oadev = false)
    (hp : s.plot_psd = false) :
    (∀ u : ConsumerState, u.plot_oadev = false →
      (clickOadev u).f_start = [] ∧ (clickOadev u).t_start = []) ∧
    (∀ u : ConsumerState, u.plot_psd = false → (clickPsd u).f_psd = []) ∧
    (ingestFrames
        (clickOadev (clickOadev (ingestFrames (clickOadev s) rs))) rs').f_start
      = rs'.flatten ∧
    (ingestFrames
        (clickPsd (clickPsd (ingestFrames (clickPsd s) rs))) rs').f_psd
      = rs'.flatten := by
  refine ⟨?_, ?_, ?_, ?_⟩
  · intro u hu; rw [clickOadev_enable u hu]; exact ⟨rfl, rfl⟩
  · intro u hu; rw [clickPsd_enable u hu]
  · have hA : clickOadev s =
        { s with plot_oadev := true, f_start := [], t_start := [] } :=
      clickOadev_enable s ho
    have hA1 : (clickOadev s).connected = true := by rw [hA]; exact hc
    obtain ⟨i1, i2, i3, i4, i5⟩ := ingestFrames_fields rs (clickOadev s) hA1
    have hA2 : (clickOadev s).plot_oadev = true := by rw [hA]
    have hB : clickOadev (ingestFrames (clickOadev s) rs) =
        { ingestFrames (clickOadev s) rs with plot_oadev := false } :=
      clickOadev_disable _ (i2.trans hA2)
    have hC : clickOadev (clickOadev (ingestFrames (clickOadev s) rs)) =
        { ingestFrames (clickOadev s) rs with
            plot_oadev := true, f_start := [], t_start := [] } := by
      rw [hB, clickOadev_enable _ rfl]
    obtain ⟨j1, j2, j3, j4, j5⟩ := ingestFrames_fields rs'
      (clickOadev (clickOadev (ingestFrames (clickOadev s) rs)))
      (by rw [hC]; exact i1)
    rw [j4 (by rw [hC]), hC]
    simp
  · have hA : clickPsd s = { s with plot_psd := true, f_psd := [] } :=
      clickPsd_enable s hp
    have hA1 : (clickPsd s).connected = true := by rw [hA]; exact hc
    obtain ⟨i1, i2, i3, i4, i5⟩ := ingestFrames_fields rs (clickPsd s) hA1
    have hA2 : (clickPsd s).plot_psd = true := by rw [hA]
    have hB : clickPsd (ingestFrames (clickPsd s) rs) =
        { ingestFrames (clickPsd s) rs with plot_psd := false } :=
      clickPsd_disable _ (i3.trans hA2)
    have hC : clickPsd (clickPsd (ingestFrames (clickPsd s) rs)) =
        { ingestFrames (clickPsd s) rs with
            plot_psd := true, f_psd := [] } := by
      rw [hB, clickPsd_enable _ rfl]
    obtain ⟨j1, j2, j3, j4, j5⟩ := ingestFrames_fields rs'
      (clickPsd (clickPsd (ingestFrames (clickPsd s) rs)))
      (by rw [hC]; exact i1)
    rw [j5 (by rw [hC]), hC]
    simp

/-- C4 witness: `C4_enable_resets` from the base state with two frames
before the re-enable and one after. -/
theorem C4_enable_resets_witness :
    (∀ u : ConsumerState, u.plot_oadev = false →
      (clickOadev u).f_start = [] ∧ (clickOadev u).t_start = []) ∧
    (∀ u : ConsumerState, u.plot_psd = false → (clickPsd u).f_psd = []) ∧
    (ingestFrames
        (clickOadev (clickOadev (ingestFrames (clickOadev baseState)
          [[1], [2]]))) [[3]]).f_start = [[3]].flatten ∧
    (ingestFrames
        (clickPsd (clickPsd (ingestFrames (clickPsd baseState)
          [[1], [2]]))) [[3]]).f_psd = [[3]].flatten :=
  C4_enable_resets baseState [[1], [2]] [[3]] rfl rfl rfl

/-- C6: for a logging session whose start index is at most the current
Series length, every connected ingestion step that appends a non-empty
frame leaves the persisted file equal to the full `(t, f)` slice of the
updated Series from the start index onward — independently of whatever
the file held before (a full rewrite, never an appended delta); moreover
the step keeps the start index, and enabling logging on a disabled state
records the Series length of that moment as the start index. -/
theorem C6_log_full_rewrite (s : ConsumerState) (r : List ℚ)
    (hc : s.connected = true) (hl : s.log_data = true) (hr : r ≠ [])
    (hk : s.log_start_index ≤ s.t.length) :
    (read_data_stream s (.frame r)).1.logFile =
      some (((read_data_stream s (.frame r)).1.t.drop s.log_start_index).zip
        ((read_data_stream s (.frame r)).1.f.drop s.log_start_index)) ∧
    (read_data_stream s (.frame r)).1.log_start_index = s.log_start_index ∧
    (∀ u : ConsumerState, u.log_data = false →
      (clickLog u).log_start_index = u.f.length ∧
      (clickLog u).log_data = true) := by
  refine ⟨?_, ?_, ?_⟩
  · have hlen : ∀ (l : List ℚ),
        (if s.initialized then
          s.t ++ (List.range l.length).map
            (fun (i : ℕ) => ((i : ℚ) + 1) * s.gate_time + s.t.getLastD 0)
        else
          s.t ++ (List.range l.length).map
            (fun (i : ℕ) => (i : ℚ) * s.gate_time)).length =
          s.t.length + l.length := by
      intro l
      by_cases hi : s.initialized
      · rw [if_pos hi, List.length_append, List.length_map, List.length_range]
      · rw [if_neg hi, List.length_append, List.length_map, List.length_range]
    have hguard : s.log_start_index <
        s.t.length + r.length := by
      have : 0 < r.length := List.length_pos.mpr hr
      omega
    simp only [read_data_stream, hc, Bool.true_eq_false, if_false]
    simp only [hlen r, hguard, and_true, hl, if_pos, true_and]
  · simp [read_data_stream, hc]
  · intro u hu
    constructor
    · simp [clickLog, toggle_logging, hu]
    · simp [clickLog, toggle_logging, hu]

/-- A concrete state for exercising the logger: one sample already in the
Series, logging on with start index 1. -/
def logDemoState : ConsumerState :=
  { baseState with
      t := [0]
      f := [5]
      initialized := true
      log_data := true
      log_start_index := 1 }

/-- C6 witness: `C6_log_full_rewrite` on a one-sample Series with logging
started at index 1 and a one-sample frame. -/
theorem C6_log_full_rewrite_witness :
    (read_data_stream logDemoState (.frame [6])).1.logFile =
      some (((read_data_stream logDemoState (.frame [6])).1.t.drop 1).zip
        ((read_data_stream logDemoState (.frame [6])).1.f.drop 1)) ∧
    (read_data_stream logDemoState (.frame [6])).1.log_start_index = 1 ∧
    (∀ u : ConsumerState, u.log_data = false →
      (clickLog u).log_start_index = u.f.length ∧
      (clickLog u).log_data = true) :=
  C6_log_full_rewrite logDemoState [6] rfl rfl (by decide) (by decide)

/-- Head of a mapped non-empty range. -/
lemma map_range_head (n : ℕ) (f : ℕ → ℚ) (hn : n ≠ 0) :
    ((List.range n).map f).head? = some (f 0) := by
  cases n with
  | zero => exact absurd rfl hn
  | succ m => rw [List.range_succ_eq_map]; simp

/-- Last element of a mapped non-empty range. -/
lemma map_range_getLast (n : ℕ) (f : ℕ → ℚ) :
    ((List.range (n + 1)).map f).getLast? = some (f n) := by
  rw [List.range_succ, List.map_append]
  exact List.getLast?_concat _

/-- An arithmetic progression `c, c+g, c+2g, ...` is a chain of exact
`+g` steps. -/
lemma chain_arith (g c : ℚ) (n : ℕ) :
    List.Chain' (fun x y => y = x + g)
      ((List.range n).map (fun (i : ℕ) => c + (i : ℚ) * g)) := by
  induction n with
  | zero => simp
  | succ m ih =>
    rw [List.range_succ, List.map_append, List.chain'_append]
    refine ⟨ih, by simp, ?_⟩
    intro x hx y hy
    cases m with
    | zero => simp at hx
    | succ k =>
      rw [map_range_getLast] at hx
      simp only [Option.mem_def, Option.some.injEq] at hx
      simp only [List.map_cons, List.map_nil, List.head?_cons,
        Option.mem_def, Option.some.injEq] at hy
      subst hx; subst hy
      push_cast
      ring

/-- A chain of exact `+g` steps with `g > 0` is strictly increasing. -/
lemma pairwise_lt_of_chain_add (g : ℚ) (hg : 0 < g) (l : List ℚ)
    (h : List.Chain' (fun x y => y = x + g) l) :
    List.Pairwise (· < ·) l := by
  rw [← List.chain'_iff_pairwise]
  exact h.imp (fun a b hab => by rw [hab]; linarith)

/-- C1: a connected ingestion step on a decoded frame of `n ≥ 1` values
appends exactly `n` values to `f` and `n` timestamps to `t`; on the first
ingested frame the timestamps are `0, gate_time, ..., (n-1)*gate_time`,
and on every later frame they are `last_t + gate_time, ...,
last_t + n*gate_time` where `last_t` is the previous final timestamp; and
when the Series was evenly spaced at `gate_time` before, it remains so
afterwards and — for `gate_time > 0` — is strictly increasing.  (The
hypotheses `h0`/`h1` are the Series well-formedness invariant: the
`initialized` flag is set exactly once the Series is non-empty.) -/
theorem C1_series_timestamps (s : ConsumerState) (r : List ℚ)
    (hc : s.connected = true) (hr : r ≠ [])
    (h0 : s.initialized = false → s.t = [])
    (h1 : s.initialized = true → s.t ≠ []) :
    (read_data_stream s (.frame r)).1.f = s.f ++ r ∧
    (read_data_stream s (.frame r)).1.t.length = s.t.length + r.length ∧
    (s.initialized = false →
      (read_data_stream s (.frame r)).1.t =
        (List.range r.length).map (fun (i : ℕ) => (i : ℚ) * s.gate_time)) ∧
    (s.initialized = true →
      (read_data_stream s (.frame r)).1.t =
        s.t ++ (List.range r.length).map
          (fun (i : ℕ) => s.t.getLastD 0 + ((i : ℚ) + 1) * s.gate_time)) ∧
    (List.Chain' (fun x y => y = x + s.gate_time) s.t →
      List.Chain' (fun x y => y = x + s.gate_time)
        (read_data_stream s (.frame r)).1.t ∧
      (0 < s.gate_time →
        List.Pairwise (· < ·) (read_data_stream s (.frame r)).1.t)) := by
  have ht : (read_data_stream s (.frame r)).1.t =
      (if s.initialized then
        s.t ++ (List.range r.length).map
          (fun (i : ℕ) => ((i : ℚ) + 1) * s.gate_time + s.t.getLastD 0)
      else
        s.t ++ (List.range r.length).map
          (fun (i : ℕ) => (i : ℚ) * s.gate_time)) := by
    simp [read_data_stream, hc]
  have hf : (read_data_stream s (.frame r)).1.f = s.f ++ r := by
    simp [read_data_stream, hc]
  by_cases hi : s.initialized
  · -- later frames: continue from the last timestamp
    have hlast := h1 hi
    rw [if_pos hi] at ht
    have hform : (read_data_stream s (.frame r)).1.t =
        s.t ++ (List.range r.length).map
          (fun (i : ℕ) => s.t.getLastD 0 + ((i : ℚ) + 1) * s.gate_time) := by
      rw [ht]
      congr 1
      exact List.map_congr_left (fun i _ => by ring)
    refine ⟨hf, ?_, fun hff => absurd hi (by rw [hff]; exact Bool.false_ne_true),
      fun _ => hform, ?_⟩
    · rw [ht]; simp
    · intro hchain
      have harith : List.Chain' (fun x y => y = x + s.gate_time)
          ((List.range r.length).map
            (fun (i : ℕ) => s.t.getLastD 0 + ((i : ℚ) + 1) * s.gate_time)) := by
        have hcongr : (List.range r.length).map
            (fun (i : ℕ) => s.t.getLastD 0 + ((i : ℚ) + 1) * s.gate_time) =
            (List.range r.length).map
              (fun (i : ℕ) =>
                (s.t.getLastD 0 + s.gate_time) + (i : ℚ) * s.gate_time) :=
          List.map_congr_left (fun i _ => by ring)
        rw [hcongr]
        exact chain_arith _ _ _
      have hwhole : List.Chain' (fun x y => y = x + s.gate_time)
          (read_data_stream s (.frame r)).1.t := by
        rw [hform, List.chain'_append]
        refine ⟨hchain, harith, ?_⟩
        intro x hx y hy
        have hxval : s.t.getLastD 0 = x := by
          rw [List.getLastD_eq_getLast?, Option.mem_def.mp hx]; rfl
        have hrlen : r.length ≠ 0 := fun habs => hr (List.length_eq_zero.mp habs)
        rw [map_range_head _ _ hrlen] at hy
        simp only [Option.mem_def, Option.some.injEq] at hy
        subst hy
        rw [← hxval]
        push_cast
        ring
      exact ⟨hwhole, fun hg => pairwise_lt_of_chain_add _ hg _ hwhole⟩
  · -- first frame: timestamps start at 0
    have hnil := h0 (by simpa using hi)
    rw [if_neg hi, hnil, List.nil_append] at ht
    refine ⟨hf, ?_, fun _ => ht, fun htt => absurd htt (by simpa using hi), ?_⟩
    · rw [ht, hnil]; simp
    · intro _
      have hwhole : List.Chain' (fun x y => y = x + s.gate_time)
          (read_data_stream s (.frame r)).1.t := by
        rw [ht]
        have hcongr : (List.range r.length).map
            (fun (i : ℕ) => (i : ℚ) * s.gate_time) =
            (List.range r.length).map
              (fun (i : ℕ) => (0 : ℚ) + (i : ℚ) * s.gate_time) :=
          List.map_congr_left (fun i _ => by ring)
        rw [hcongr]
        exact chain_arith _ _ _
      exact ⟨hwhole, fun hg => pairwise_lt_of_chain_add _ hg _ hwhole⟩

/-- C1 witness: `C1_series_timestamps` twice from the empty Series with
`gate_time = 1`: the first frame `[5, 6]` gets timestamps `0, 1` and a
second frame `[7]` ingested after it gets timestamp `2`. -/
theorem C1_series_timestamps_witness :
    ((read_data_stream baseState (.frame [5, 6])).1.f =
        baseState.f ++ [5, 6] ∧
      (read_data_stream baseState (.frame [5, 6])).1.t.length =
        baseState.t.length + 2 ∧
      (baseState.initialized = false →
        (read_data_stream baseState (.frame [5, 6])).1.t =
          (List.range 2).map (fun (i : ℕ) => (i : ℚ) * baseState.gate_time)) ∧
      (baseState.initialized = true →
        (read_data_stream baseState (.frame [5, 6])).1.t =
          baseState.t ++ (List.range 2).map
            (fun (i : ℕ) =>
              baseState.t.getLastD 0 + ((i : ℚ) + 1) * baseState.gate_time)) ∧
      (List.Chain' (fun x y => y = x + baseState.gate_time) baseState.t →
        List.Chain' (fun x y => y = x + baseState.gate_time)
          (read_data_stream baseState (.frame [5, 6])).1.t ∧
        (0 < baseState.gate_time →
          List.Pairwise (· < ·)
            (read_data_stream baseState (.frame [5, 6])).1.t))) ∧
    (read_data_stream (read_data_stream baseState (.frame [5, 6])).1
        (.frame [7])).1.t = [0, 1, 2] :=
  ⟨C1_series_timestamps baseState [5, 6] rfl (by decide) (fun _ => rfl)
      (by decide),
   by
     simp [read_data_stream, baseState]
     norm_num [List.range_succ]⟩

/-- Gauss: twice the sum of the first `n` indices. -/
lemma indexSum_closed (n : ℕ) : 2 * indexSum n = (n : ℚ) * n - n := by
  induction n with
  | zero => simp [indexSum]
  | succ m ih =>
    have : indexSum (m + 1) = indexSum m + m := by
      simp [indexSum, List.range_succ]
    rw [this]
    push_cast
    push_cast at ih
    ring_nf
    ring_nf at ih
    linarith

/-- Six times the sum of the first `n` squared indices. -/
lemma indexSqSum_closed (n : ℕ) :
    6 * indexSqSum n = 2 * (n : ℚ) ^ 3 - 3 * (n : ℚ) ^ 2 + n := by
  induction n with
  | zero => simp [indexSqSum]
  | succ m ih =>
    have : indexSqSum (m + 1) = indexSqSum m + (m : ℚ) * m := by
      simp [indexSqSum, List.range_succ]
    rw [this]
    push_cast
    push_cast at ih
    ring_nf
    ring_nf at ih
    linarith

/-- Length of the synthetic linear input. -/
lemma linearData_length (a m : ℚ) (n : ℕ) : (linearData a m n).length = n := by
  simp [linearData]

/-- Sum of the synthetic linear input. -/
lemma linearData_sum (a m : ℚ) (n : ℕ) :
    (linearData a m n).sum = n * a + m * indexSum n := by
  induction n with
  | zero => simp [linearData, indexSum]
  | succ k ih =>
    have h1 : linearData a m (k + 1) = linearData a m k ++ [a + m * k] := by
      simp [linearData, List.range_succ]
    have h2 : indexSum (k + 1) = indexSum k + k := by
      simp [indexSum, List.range_succ]
    rw [h1, List.sum_append, ih, h2]
    simp only [List.sum_cons, List.sum_nil]
    push_cast
    ring

/-- Appending an element to a weighted index sum. -/
lemma weightedIdxSum_append (x : ℚ) :
    ∀ (ys : List ℚ) (k : ℕ),
      weightedIdxSum k (ys ++ [x]) =
        weightedIdxSum k ys + ((k : ℚ) + ys.length) * x := by
  intro ys
  induction ys with
  | nil => intro k; simp [weightedIdxSum]
  | cons y ys ih =>
    intro k
    have hdef : weightedIdxSum k ((y :: ys) ++ [x]) =
        (k : ℚ) * y + weightedIdxSum (k + 1) (ys ++ [x]) := rfl
    have hdef2 : weightedIdxSum k (y :: ys) =
        (k : ℚ) * y + weightedIdxSum (k + 1) ys := rfl
    rw [hdef, ih (k + 1), hdef2, List.length_cons]
    push_cast
    ring

/-- The weighted index sum of the synthetic linear input. -/
lemma weightedIdxSum_linear (a m : ℚ) (n : ℕ) :
    weightedIdxSum 0 (linearData a m n) =
      a * indexSum n + m * indexSqSum n := by
  induction n with
  | zero => simp [linearData, weightedIdxSum, indexSum, indexSqSum]
  | succ k ih =>
    have h1 : linearData a m (k + 1) = linearData a m k ++ [a + m * k] := by
      simp [linearData, List.range_succ]
    have h2 : indexSum (k + 1) = indexSum k + k := by
      simp [indexSum, List.range_succ]
    have h3 : indexSqSum (k + 1) = indexSqSum k + (k : ℚ) * k := by
      simp [indexSqSum, List.range_succ]
    rw [h1, weightedIdxSum_append, ih, h2, h3, linearData_length]
    push_cast
    ring

/-- For `n ≥ 2` the least-squares denominator `n·Σx² - (Σx)²` is
nonzero. -/
lemma polyfit_denom_ne (n : ℕ) (hn : 2 ≤ n) :
    (n : ℚ) * indexSqSum n - indexSum n * indexSum n ≠ 0 := by
  have g1 := indexSum_closed n
  have g2 := indexSqSum_closed n
  have hd : 12 * ((n : ℚ) * indexSqSum n - indexSum n * indexSum n) =
      (n : ℚ) ^ 4 - (n : ℚ) ^ 2 := by
    linear_combination (2 * (n : ℚ)) * g2 -
      3 * (2 * indexSum n + (n : ℚ) * n - n) * g1
  have hn' : (2 : ℚ) ≤ (n : ℚ) := by exact_mod_cast hn
  have hpos : 0 < (n : ℚ) ^ 4 - (n : ℚ) ^ 2 := by nlinarith
  intro h
  rw [h, mul_zero] at hd
  linarith

/-- On the synthetic linear input with `n ≥ 2` points, the least-squares
slope is exactly the generating slope. -/
lemma polyfitSlope_linear (a m : ℚ) (n : ℕ) (hn : 2 ≤ n) :
    polyfitSlope (linearData a m n) = m := by
  have hd := polyfit_denom_ne n hn
  unfold polyfitSlope
  rw [linearData_length, linearData_sum, weightedIdxSum_linear]
  have hnum : (n : ℚ) * (a * indexSum n + m * indexSqSum n) -
      indexSum n * ((n : ℚ) * a + m * indexSum n) =
      m * ((n : ℚ) * indexSqSum n - indexSum n * indexSum n) := by ring
  rw [hnum, mul_div_assoc, div_self hd, mul_one]

/-- On the synthetic linear input with `n ≥ 2` points, the degree-1
least-squares fit recovers the slope and intercept exactly. -/
lemma polyfit1_linear (a m : ℚ) (n : ℕ) (hn : 2 ≤ n) :
    polyfit1 (linearData a m n) = (m, a) := by
  have hnq : (n : ℚ) ≠ 0 := by
    have h2 : (0 : ℚ) < n := by
      exact_mod_cast Nat.lt_of_lt_of_le (by norm_num) hn
    exact ne_of_gt h2
  unfold polyfit1
  rw [polyfitSlope_linear a m n hn, linearData_length, linearData_sum]
  have hint : ((n : ℚ) * a + m * indexSum n - m * indexSum n) = (n : ℚ) * a := by
    ring
  rw [hint, mul_div_cancel_left₀ a hnq]

/-- Residuals against the true generating line vanish identically, for
any starting index. -/
lemma trendResiduals_linear (a m : ℚ) :
    ∀ (n k : ℕ),
      trendResiduals m a k
        ((List.range n).map (fun (i : ℕ) => a + m * ((k : ℚ) + i))) =
        List.replicate n 0 := by
  intro n
  induction n with
  | zero => intro k; simp [trendResiduals]
  | succ p ih =>
    intro k
    rw [List.range_succ_eq_map, List.map_cons, List.map_map]
    have htail : (List.range p).map
        ((fun (i : ℕ) => a + m * ((k : ℚ) + i)) ∘ Nat.succ) =
        (List.range p).map (fun (i : ℕ) => a + m * (((k + 1 : ℕ) : ℚ) + i)) := by
      refine List.map_congr_left (fun i _ => ?_)
      simp only [Function.comp_apply, Nat.succ_eq_add_one]
      push_cast
      ring
    show (a + m * ((k : ℚ) + ((0 : ℕ) : ℚ)) - (m * (k : ℚ) + a)) ::
        trendResiduals m a (k + 1)
          ((List.range p).map
            ((fun (i : ℕ) => a + m * ((k : ℚ) + i)) ∘ Nat.succ)) =
      List.replicate (p + 1) 0
    rw [htail, ih (k + 1), List.replicate_succ]
    congr 1
    push_cast
    ring

/-- C8: with detrending enabled, on the perfectly linear input
`f[i] = a + m*i` of length `n ≥ 2`, `get_detrended_data` returns the
identically-zero series (flat, zero variance) together with the fitted
slope, which equals `m` exactly. -/
theorem C8_detrend_linear (a m : ℚ) (n : ℕ) (hn : 2 ≤ n) :
    get_detrended_data true (linearData a m n) =
      (List.replicate n 0, some m) := by
  have hlen : ¬((linearData a m n).length < 2) := by
    rw [linearData_length]; omega
  unfold get_detrended_data
  rw [if_neg (by simp [hlen])]
  have hc : polyfit1 (linearData a m n) = (m, a) := polyfit1_linear a m n hn
  have hdata : linearData a m n =
      (List.range n).map (fun (i : ℕ) => a + m * (((0 : ℕ) : ℚ) + i)) := by
    refine List.map_congr_left (fun i _ => ?_)
    push_cast
    ring
  show (trendResiduals (polyfit1 (linearData a m n)).1
      (polyfit1 (linearData a m n)).2 0 (linearData a m n),
    some (polyfit1 (linearData a m n)).1) = (List.replicate n 0, some m)
  rw [hc]
  show (trendResiduals m a 0 (linearData a m n), some m) =
    (List.replicate n 0, some m)
  rw [hdata, trendResiduals_linear a m n 0]

/-- C8 witness: `C8_detrend_linear` on `f[i] = 5 + 2i` with 4 points. -/
theorem C8_detrend_linear_witness :
    get_detrended_data true (linearData 5 2 4) =
      (List.replicate 4 0, some 2) :=
  C8_detrend_linear 5 2 4 (by norm_num)

end KS53230
